import Mathlib

/-!
Verification of the TaskPilot MERN task-manager backend and client.

The definitions below are a shallow embedding of the Express task router
(`routes/tasks.js`), the route index (`routes/index.js`), and the React
client (`App.jsx`).  Mongo documents become a Lean structure; the Mongo
collection becomes a list of tasks inside a `Store`; each route handler
becomes a function from the authenticated caller's identity, the parsed
request, and the store to an `Except`-style result.  Identifiers and
timestamps are `Nat`; the JS `parseInt`-validated numeric query strings
are embedded as `Option Int` (express-validator's `isInt` already
restricts the admitted strings to decimal integers, which `parseInt`
then maps to the corresponding mathematical integer).
-/

namespace TaskPilot

/-- A task document, following the fields used by `routes/tasks.js`:
`_id`, `owner`, `title`, `description`, `completed`, `createdAt`.
`id` stands for the Mongo `_id` (unique per document) and `owner` for the
owning user's `_id`. -/
structure Task where
  id : Nat
  owner : Nat
  title : String
  description : String
  completed : Bool
  createdAt : Nat
deriving Repr, DecidableEq

/-- The task collection plus the two server-side generators the handlers
rely on: fresh `_id` values and the server clock used for `createdAt`. -/
structure Store where
  tasks : List Task
  nextId : Nat
  clock : Nat
deriving Repr, DecidableEq

/-- One entry of the 400-response body produced by `handleValidation`:
`errors.array().map(e => ({ param: e.param, msg: e.msg }))`. -/
structure FieldError where
  param : String
  msg : String
deriving Repr, DecidableEq

/-- Outcomes the task routes map to HTTP statuses: validation failures
become 400 with the field errors, a failed owner-scoped lookup becomes
404 `Task not found`. -/
inductive ApiError where
  | validation (errors : List FieldError)
  | notFound
deriving Repr, DecidableEq

/-- The JSON body of a task request as the handlers see it.  The client
may put anything in the JSON; the routes only ever read `title`,
`description` and `completed`, so any `owner` field a client smuggles in
is representable here and provably ignored. -/
structure TaskBody where
  title : Option String
  description : Option String
  completed : Option Bool
  owner : Option Nat
deriving Repr, DecidableEq

/-- Parsed query string of `GET /api/tasks`.  `completed` has passed
`isIn(['true','false'])` and the handler's `=== 'true'` conversion;
`page` and `limit` are the integers denoted by the decimal query
strings; `sort` is the raw `sort` parameter. -/
structure ListQuery where
  completed : Option Bool
  page : Option Int
  limit : Option Int
  sort : Option String
deriving Repr, DecidableEq

/-- JS `String.prototype.trim` (also the sanitizer `validator.trim`
applied by the `body('title')... .trim()` chains): strip whitespace
from both ends of the string. -/
def jsTrim (s : String) : String :=
  ⟨((s.data.dropWhile Char.isWhitespace).reverse.dropWhile Char.isWhitespace).reverse⟩

/-- JS `String.prototype.split` with a single-character separator, on
character lists: `"a:b:c".split(':')` is `["a","b","c"]`, and
`"".split(':')` is `[""]`. -/
def jsSplitChars (sep : Char) : List Char → List (List Char)
  | [] => [[]]
  | c :: rest =>
    let r := jsSplitChars sep rest
    if c = sep then [] :: r
    else
      match r with
      | [] => [[c]]
      | p :: ps => (c :: p) :: ps

/-- JS `s.split(sep)` for a one-character `sep`, on `String`. -/
def jsSplit (s : String) (sep : Char) : List String :=
  (jsSplitChars sep s.data).map fun l => ⟨l⟩

/-- Sort specification derived from the `sort` query parameter, from
`routes/tasks.js`:

    let sort = { createdAt: -1 };
    if (req.query.sort) {
      const [field, dir] = req.query.sort.split(':');
      sort = {};
      sort[field] = dir === 'asc' ? 1 : -1;
    }

`none` and the empty string (falsy in JS) give the default; otherwise
`field` is `split(':')[0]` taken with no validation, and the direction
is `1` exactly when `split(':')[1]` is the string `'asc'`. -/
def parseSort : Option String → String × Int
  | none => ("createdAt", -1)
  | some s =>
    if s = "" then ("createdAt", -1)
    else
      let parts := jsSplit s ':'
      let field := parts.headD ""
      let dir := parts[1]?
      (field, if dir = some "asc" then 1 else -1)

/-- Mongo's per-field ascending comparison for the fields a task
document has; a sort key naming no stored field compares all documents
equal (every document is "missing" the field). -/
def fieldLe (field : String) (a b : Task) : Bool :=
  if field = "createdAt" then a.createdAt ≤ b.createdAt
  else if field = "title" then a.title ≤ b.title
  else if field = "description" then a.description ≤ b.description
  else if field = "completed" then !a.completed || b.completed
  else if field = "_id" then a.id ≤ b.id
  else true

/-- Comparison used by `.sort(sort)`: ascending on the field when the
direction is `1`, descending otherwise. -/
def sortLe (field : String) (dir : Int) (a b : Task) : Bool :=
  if dir = 1 then fieldLe field a b else fieldLe field b a

/-- Insert into a sorted run, keeping order by `le`. -/
def insertSorted (le : Task → Task → Bool) (t : Task) : List Task → List Task
  | [] => [t]
  | x :: xs => if le t x then t :: x :: xs else x :: insertSorted le t xs

/-- The cursor's `.sort(sort)`: an order-by-comparison rearrangement of
the matched documents (insertion sort; Mongo fixes only the order, not
the algorithm). -/
def sortTasks (le : Task → Task → Bool) : List Task → List Task
  | [] => []
  | x :: xs => insertSorted le x (sortTasks le xs)

/-- `query('page').optional().isInt({ min: 1 })`. -/
def pageValid : Option Int → Bool
  | none => true
  | some p => 1 ≤ p

/-- `query('limit').optional().isInt({ min: 1, max: 100 })`. -/
def limitValid : Option Int → Bool
  | none => true
  | some l => 1 ≤ l && l ≤ 100

/-- The `errors.array()` of the list route's validator chain (the
`completed` membership check is absorbed by the `Option Bool` type). -/
def listValidationErrors (q : ListQuery) : List FieldError :=
  (if pageValid q.page then [] else [⟨"page", "page must be >= 1"⟩])
    ++ (if limitValid q.limit then [] else [⟨"limit", "limit must be between 1 and 100"⟩])

/-- The document filter built by the list handler:
`const filter = { owner }; if (req.query.completed !== undefined)
filter.completed = req.query.completed.toLowerCase() === 'true';`. -/
def listFilter (caller : Nat) (q : ListQuery) (t : Task) : Bool :=
  t.owner == caller &&
    (match q.completed with
     | none => true
     | some c => t.completed == c)

/-- `meta` object of the list response. -/
structure ListMeta where
  total : Nat
  page : Int
  limit : Int
  pages : Nat
deriving Repr, DecidableEq

/-- Body of a successful list response: `{ tasks, meta }`. -/
structure ListResult where
  tasks : List Task
  meta : ListMeta
deriving Repr, DecidableEq

/-- `GET /api/tasks` handler (`router.get('/')` in `routes/tasks.js`):
validate `page`/`limit`, clamp `page` to `≥ 1` and `limit` to
`[1,100]` with defaults 1 and 10, filter the caller's tasks by the
optional completion filter, sort, `skip((page-1)*limit)`,
`limit(limit)`, and return the page with count metadata
(`pages = Math.ceil(total / limit)`). -/
def listTasks (caller : Nat) (q : ListQuery) (st : Store) : Except ApiError ListResult :=
  let errs := listValidationErrors q
  if errs ≠ [] then .error (.validation errs)
  else
    let page : Int := max 1 (q.page.getD 1)
    let limit : Int := max 1 (min 100 (q.limit.getD 10))
    let skip := ((page - 1) * limit).toNat
    let s := parseSort q.sort
    let matched := st.tasks.filter (listFilter caller q)
    let total := matched.length
    let sorted := sortTasks (sortLe s.1 s.2) matched
    let tasks := (sorted.drop skip).take limit.toNat
    .ok { tasks := tasks
          meta := { total := total, page := page, limit := limit
                    pages := (total + limit.toNat - 1) / limit.toNat } }

/-- `errors.array()` of the create route:
`body('title').isString().trim().notEmpty()` (`description`'s
`optional().isString()` is absorbed by `Option String`). -/
def createValidationErrors (b : TaskBody) : List FieldError :=
  match b.title with
  | none => [⟨"title", "title is required"⟩]
  | some s => if jsTrim s = "" then [⟨"title", "title is required"⟩] else []

/-- Modelled from the spec: the Mongoose `Task` model
(`models/Task.js`, not present in the sources) as `Task.create` uses
it — the completion flag "default false" and a "server-assigned
creation timestamp"; the store supplies the fresh `_id`. -/
def newTask (st : Store) (owner : Nat) (title description : String) : Task :=
  { id := st.nextId, owner := owner, title := title
    description := description, completed := false, createdAt := st.clock }

/-- `POST /api/tasks` handler (`router.post('/')`): after validation,
`Task.create({ title, description: description || '', owner: req.user._id })`
with `title` already trimmed by the validator's sanitizer; responds 201
with the created task. -/
def createTask (caller : Nat) (b : TaskBody) (st : Store) :
    Except ApiError (Task × Store) :=
  let errs := createValidationErrors b
  if errs ≠ [] then .error (.validation errs)
  else
    match b.title with
    | none => .error (.validation [⟨"title", "title is required"⟩])
    | some rawTitle =>
      let t := newTask st caller (jsTrim rawTitle) (b.description.getD "")
      .ok (t, { tasks := st.tasks ++ [t], nextId := st.nextId + 1, clock := st.clock + 1 })

/-- The owner-scoped lookup predicate `{ _id: req.params.id, owner: req.user._id }`
shared by the get, update and delete routes. -/
def ownedMatch (caller id : Nat) (t : Task) : Bool :=
  t.id == id && t.owner == caller

/-- `GET /api/tasks/:id` handler (`router.get('/:id')`):
`Task.findOne({ _id, owner })`, 404 `Task not found` when absent. -/
def getTask (caller id : Nat) (st : Store) : Except ApiError Task :=
  match st.tasks.find? (ownedMatch caller id) with
  | none => .error .notFound
  | some t => .ok t

/-- `errors.array()` of the update route:
`body('title').optional().isString().trim().notEmpty()`; the
`description`/`completed` type checks are absorbed by the option
types. -/
def updateValidationErrors (b : TaskBody) : List FieldError :=
  match b.title with
  | some s => if jsTrim s = "" then [⟨"title", "title must be a non-empty string"⟩] else []
  | none => []

/-- The `$set` document built by the update handler: each of `title`
(trimmed by the sanitizer), `description`, `completed` is written only
when present in the body (`if (x !== undefined) updates.x = x`). -/
def applyUpdates (b : TaskBody) (t : Task) : Task :=
  { t with
    title := match b.title with | some s => jsTrim s | none => t.title
    description := b.description.getD t.description
    completed := b.completed.getD t.completed }

/-- `PUT /api/tasks/:id` handler (`router.put('/:id')`): after
validation, `Task.findOneAndUpdate({ _id, owner }, { $set: updates },
{ new: true })`; 404 `Task not found` when the owner-scoped filter
matches nothing, otherwise the updated document.  Mongo `_id`s are
unique, so `$set` on the matched document is a pointwise map over the
collection guarded by the filter. -/
def updateTask (caller id : Nat) (b : TaskBody) (st : Store) :
    Except ApiError (Task × Store) :=
  let errs := updateValidationErrors b
  if errs ≠ [] then .error (.validation errs)
  else
    match st.tasks.find? (ownedMatch caller id) with
    | none => .error .notFound
    | some t =>
      let t' := applyUpdates b t
      .ok (t', { st with
                 tasks := st.tasks.map fun x =>
                   if ownedMatch caller id x then applyUpdates b x else x })

/-- `DELETE /api/tasks/:id` handler (`router.delete('/:id')`):
`Task.findOneAndDelete({ _id, owner })`; 404 `Task not found` when the
owner-scoped filter matches nothing. -/
def deleteTask (caller id : Nat) (st : Store) : Except ApiError Store :=
  match st.tasks.find? (ownedMatch caller id) with
  | none => .error .notFound
  | some _ => .ok { st with tasks := st.tasks.filter fun x => !(ownedMatch caller id x) }

/-! Client model, from `App.jsx`. -/

/-- What the client reads off an `apiFetch` result: `r.ok`, `r.status`,
and the body fields it consults (`r.body.me`, `r.body.tasks`). -/
structure ClientResponse where
  ok : Bool
  status : Nat
  me : Option Nat
  tasks : Option (List Task)
deriving Repr, DecidableEq

/-- Client-side state: the token kept in `localStorage` by `useAuth`,
the `user` state, the loaded `tasks` list, and the banner `error`
state of the `Tasks` component. -/
structure ClientState where
  token : Option String
  user : Option Nat
  tasks : List Task
  error : Option String
deriving Repr, DecidableEq

/-- `logout` from `useAuth`: `setToken(null); setUser(null)`. -/
def clientLogout (s : ClientState) : ClientState :=
  { s with token := none, user := none }

/-- `App`'s mount effect handling the `/me` response:
`if (r.ok && r.body && r.body.me) setUser(r.body.me); else logout();`. -/
def onMeResponse (s : ClientState) (r : ClientResponse) : ClientState :=
  if r.ok && r.me.isSome then { s with user := r.me } else clientLogout s

/-- `Tasks.fetchTasks` handling the `GET /tasks` response:
`if (r.ok) setTasks(r.body.tasks || []); else setError('Failed to load tasks');`. -/
def onFetchTasksResponse (s : ClientState) (r : ClientResponse) : ClientState :=
  if r.ok then { s with tasks := r.tasks.getD [] }
  else { s with error := some "Failed to load tasks" }

/-- The `/tasks` route element:
`token ? <Tasks token={token} user={user} /> : <Navigate to="/login" />` —
with no token the router sends the user to the login view. -/
def tasksRouteTarget (token : Option String) : String :=
  if token.isSome then "/tasks" else "/login"

end TaskPilot

namespace TaskPilot

lemma insertSorted_perm (le : Task → Task → Bool) (t : Task) (l : List Task) :
    (insertSorted le t l).Perm (t :: l) := by
  induction l with
  | nil => exact List.Perm.refl _
  | cons x xs ih =>
    unfold insertSorted
    split
    · exact List.Perm.refl _
    · exact ((ih.cons x).trans (List.Perm.swap t x xs))

lemma sortTasks_perm (le : Task → Task → Bool) (l : List Task) :
    (sortTasks le l).Perm l := by
  induction l with
  | nil => exact List.Perm.refl _
  | cons x xs ih =>
    exact (insertSorted_perm le x (sortTasks le xs)).trans (ih.cons x)

lemma mem_of_mem_listTasks {caller : Nat} {q : ListQuery} {st : Store}
    {res : ListResult} (h : listTasks caller q st = .ok res) :
    ∀ t ∈ res.tasks, t ∈ st.tasks.filter (listFilter caller q) := by
  intro t ht
  simp only [listTasks] at h
  split at h
  · exact absurd h (by simp)
  · simp only [Except.ok.injEq] at h
    subst h
    simp only at ht
    have h1 := List.mem_of_mem_take ht
    have h2 := List.mem_of_mem_drop h1
    exact ((sortTasks_perm _ _).mem_iff).mp h2

/-- C1: every task an authenticated list call returns is owned by the
caller, and the page holds at most the effective (clamped) limit of
tasks. -/
theorem list_owner_scoped_and_bounded (caller : Nat) (q : ListQuery) (st : Store)
    (res : ListResult) (h : listTasks caller q st = .ok res) :
    (∀ t ∈ res.tasks, t.owner = caller) ∧
    res.tasks.length ≤ res.meta.limit.toNat ∧
    res.meta.limit = max 1 (min 100 (q.limit.getD 10)) := by
  refine ⟨?_, ?_, ?_⟩
  · intro t ht
    have := mem_of_mem_listTasks h t ht
    rw [List.mem_filter] at this
    have hf := this.2
    unfold listFilter at hf
    simp only [Bool.and_eq_true, beq_iff_eq] at hf
    exact hf.1
  · simp only [listTasks] at h
    split at h
    · exact absurd h (by simp)
    · simp only [Except.ok.injEq] at h
      subst h
      simp only [List.length_take]
      exact min_le_left _ _
  · simp only [listTasks] at h
    split at h
    · exact absurd h (by simp)
    · simp only [Except.ok.injEq] at h
      subst h
      rfl

theorem list_owner_scoped_and_bounded_witness :
    listTasks 1 ⟨none, none, some 5, none⟩
        ⟨[⟨0, 1, "a", "", false, 5⟩, ⟨1, 2, "b", "", false, 6⟩], 2, 7⟩ =
      .ok ⟨[⟨0, 1, "a", "", false, 5⟩], ⟨1, 1, 5, 1⟩⟩ ∧
    ((∀ t ∈ ([⟨0, 1, "a", "", false, 5⟩] : List Task), t.owner = 1) ∧
      ([(⟨0, 1, "a", "", false, 5⟩ : Task)].length ≤ (5 : Int).toNat) ∧
      ((5 : Int) = max 1 (min 100 ((some (5 : Int)).getD 10)))) := by
  constructor
  · rfl
  · exact list_owner_scoped_and_bounded 1 ⟨none, none, some 5, none⟩
      ⟨[⟨0, 1, "a", "", false, 5⟩, ⟨1, 2, "b", "", false, 6⟩], 2, 7⟩
      ⟨[⟨0, 1, "a", "", false, 5⟩], ⟨1, 1, 5, 1⟩⟩ (by rfl)

end TaskPilot

namespace TaskPilot

/-- C2: in every task operation the owner value used in the store query
or written into a new task is exactly the authenticated identity: the
handlers' results do not depend on an `owner` field smuggled into the
request body, a created task is owned by the caller, a fetched task is
owned by the caller, and no update ever changes any task's owner. -/
theorem owner_from_auth_only (caller o id : Nat) (b : TaskBody) (st : Store) :
    createTask caller { b with owner := some o } st = createTask caller b st ∧
    updateTask caller id { b with owner := some o } st = updateTask caller id b st ∧
    (∀ t st', createTask caller b st = .ok (t, st') → t.owner = caller) ∧
    (∀ t, getTask caller id st = .ok t → t.owner = caller) ∧
    (∀ t' st', updateTask caller id b st = .ok (t', st') →
      ∀ x ∈ st'.tasks, ∃ y ∈ st.tasks, x.id = y.id ∧ x.owner = y.owner) := by
  refine ⟨rfl, rfl, ?_, ?_, ?_⟩
  · intro t st' h
    simp only [createTask] at h
    split at h
    · exact absurd h (by simp)
    · split at h
      · exact absurd h (by simp)
      · simp only [Except.ok.injEq, Prod.mk.injEq] at h
        rw [← h.1]
        rfl
  · intro t h
    simp only [getTask] at h
    split at h
    · exact absurd h (by simp)
    next t0 hfind =>
      simp only [Except.ok.injEq] at h
      subst h
      have hp := List.find?_some hfind
      unfold ownedMatch at hp
      simp only [Bool.and_eq_true, beq_iff_eq] at hp
      exact hp.2
  · intro t' st' h
    simp only [updateTask] at h
    split at h
    · exact absurd h (by simp)
    · split at h
      · exact absurd h (by simp)
      · simp only [Except.ok.injEq, Prod.mk.injEq] at h
        intro x hx
        rw [← h.2] at hx
        simp only at hx
        obtain ⟨y, hy, hxy⟩ := List.mem_map.mp hx
        refine ⟨y, hy, ?_, ?_⟩ <;> rw [← hxy] <;>
          by_cases hc : ownedMatch caller id y = true <;>
          simp [hc, applyUpdates]

theorem owner_from_auth_only_witness :
    (createTask 1 ⟨some "a", none, some true, some 99⟩ ⟨[⟨0, 1, "x", "d", false, 3⟩], 1, 4⟩ =
      createTask 1 ⟨some "a", none, some true, none⟩ ⟨[⟨0, 1, "x", "d", false, 3⟩], 1, 4⟩) ∧
    (updateTask 1 0 ⟨some "a", none, some true, some 99⟩ ⟨[⟨0, 1, "x", "d", false, 3⟩], 1, 4⟩ =
      updateTask 1 0 ⟨some "a", none, some true, none⟩ ⟨[⟨0, 1, "x", "d", false, 3⟩], 1, 4⟩) ∧
    Task.owner ⟨1, 1, "a", "", false, 4⟩ = 1 ∧
    Task.owner ⟨0, 1, "x", "d", false, 3⟩ = 1 ∧
    (∃ y ∈ ([⟨0, 1, "x", "d", false, 3⟩] : List Task),
      Task.id ⟨0, 1, "a", "d", true, 3⟩ = y.id ∧ Task.owner ⟨0, 1, "a", "d", true, 3⟩ = y.owner) := by
  have H := owner_from_auth_only 1 99 0 ⟨some "a", none, some true, none⟩
    ⟨[⟨0, 1, "x", "d", false, 3⟩], 1, 4⟩
  exact ⟨H.1, H.2.1,
    H.2.2.1 ⟨1, 1, "a", "", false, 4⟩
      ⟨[⟨0, 1, "x", "d", false, 3⟩, ⟨1, 1, "a", "", false, 4⟩], 2, 5⟩ (by rfl),
    H.2.2.2.1 ⟨0, 1, "x", "d", false, 3⟩ (by rfl),
    H.2.2.2.2 ⟨0, 1, "a", "d", true, 3⟩ ⟨[⟨0, 1, "a", "d", true, 3⟩], 1, 4⟩ (by rfl)
      ⟨0, 1, "a", "d", true, 3⟩ (by simp)⟩

end TaskPilot

namespace TaskPilot

lemma find?_owned_eq_none {caller id : Nat} {st : Store}
    (h : ∀ t ∈ st.tasks, ¬(t.id = id ∧ t.owner = caller)) :
    st.tasks.find? (ownedMatch caller id) = none := by
  rw [List.find?_eq_none]
  intro x hx
  unfold ownedMatch
  simp only [Bool.and_eq_true, beq_iff_eq]
  exact h x hx

/-- C3: when no task with the given identifier is owned by the caller —
because no such task exists (for instance it was already deleted) or
because another user owns it — get, update (with a valid body) and
delete all answer the same 404 `notFound`; no distinct forbidden
outcome exists. -/
theorem missing_or_foreign_is_not_found (caller id : Nat) (b : TaskBody) (st : Store)
    (h : ∀ t ∈ st.tasks, ¬(t.id = id ∧ t.owner = caller))
    (hb : updateValidationErrors b = []) :
    getTask caller id st = .error .notFound ∧
    updateTask caller id b st = .error .notFound ∧
    deleteTask caller id st = .error .notFound := by
  have hfind := find?_owned_eq_none h
  refine ⟨?_, ?_, ?_⟩
  · simp [getTask, hfind]
  · simp [updateTask, hb, hfind]
  · simp [deleteTask, hfind]

theorem missing_or_foreign_is_not_found_witness :
    (getTask 1 0 ⟨[⟨0, 2, "a", "", false, 0⟩], 1, 1⟩ = .error .notFound ∧
      updateTask 1 0 ⟨none, none, some true, none⟩ ⟨[⟨0, 2, "a", "", false, 0⟩], 1, 1⟩ =
        .error .notFound ∧
      deleteTask 1 0 ⟨[⟨0, 2, "a", "", false, 0⟩], 1, 1⟩ = .error .notFound) ∧
    (getTask 1 7 ⟨[⟨0, 1, "a", "", false, 0⟩], 1, 1⟩ = .error .notFound ∧
      updateTask 1 7 ⟨none, none, some true, none⟩ ⟨[⟨0, 1, "a", "", false, 0⟩], 1, 1⟩ =
        .error .notFound ∧
      deleteTask 1 7 ⟨[⟨0, 1, "a", "", false, 0⟩], 1, 1⟩ = .error .notFound) := by
  constructor
  · exact missing_or_foreign_is_not_found 1 0 ⟨none, none, some true, none⟩
      ⟨[⟨0, 2, "a", "", false, 0⟩], 1, 1⟩ (by decide) rfl
  · exact missing_or_foreign_is_not_found 1 7 ⟨none, none, some true, none⟩
      ⟨[⟨0, 1, "a", "", false, 0⟩], 1, 1⟩ (by decide) rfl

/-- C4: with a supplied title, create fails with a validation error
exactly when the title is empty after trimming; on success it appends
to the store a new task owned by the caller, not completed, stamped
with the server clock, and titled with the trimmed title. -/
theorem create_validates_title_and_defaults (caller : Nat) (s : String) (b : TaskBody)
    (st : Store) (hb : b.title = some s) :
    ((∃ e, createTask caller b st = .error (.validation e)) ↔ jsTrim s = "") ∧
    (∀ t st', createTask caller b st = .ok (t, st') →
      t ∈ st'.tasks ∧ t.owner = caller ∧ t.completed = false ∧
      t.createdAt = st.clock ∧ t.title = jsTrim s ∧
      st'.tasks = st.tasks ++ [t]) := by
  by_cases hs : jsTrim s = ""
  · constructor
    · exact ⟨fun _ => hs, fun _ =>
        ⟨[⟨"title", "title is required"⟩],
          by simp [createTask, createValidationErrors, hb, hs]⟩⟩
    · intro t st' h
      simp [createTask, createValidationErrors, hb, hs] at h
  · constructor
    · constructor
      · rintro ⟨e, he⟩
        simp [createTask, createValidationErrors, hb, hs] at he
      · intro hs'
        exact absurd hs' hs
    · intro t st' h
      simp only [createTask, createValidationErrors, hb, hs, if_false,
        ne_eq, not_true_eq_false, not_false_eq_true, if_neg] at h
      simp only [Except.ok.injEq, Prod.mk.injEq] at h
      obtain ⟨ht, hst⟩ := h
      subst hst
      rw [← ht]
      refine ⟨by simp, rfl, rfl, rfl, rfl, by simp⟩

theorem create_validates_title_and_defaults_witness :
    (∃ e, createTask 1 ⟨some "   ", none, none, none⟩ ⟨[], 0, 0⟩ = .error (.validation e)) ∧
    ((⟨0, 1, "buy milk", "", false, 0⟩ : Task) ∈ ([⟨0, 1, "buy milk", "", false, 0⟩] : List Task) ∧
      Task.owner ⟨0, 1, "buy milk", "", false, 0⟩ = 1 ∧
      Task.completed ⟨0, 1, "buy milk", "", false, 0⟩ = false ∧
      Task.createdAt ⟨0, 1, "buy milk", "", false, 0⟩ = 0 ∧
      Task.title ⟨0, 1, "buy milk", "", false, 0⟩ = jsTrim "  buy milk " ∧
      ([⟨0, 1, "buy milk", "", false, 0⟩] : List Task) = [] ++ [⟨0, 1, "buy milk", "", false, 0⟩]) := by
  constructor
  · exact ((create_validates_title_and_defaults 1 "   " ⟨some "   ", none, none, none⟩
      ⟨[], 0, 0⟩ rfl).1).mpr (by decide)
  · exact (create_validates_title_and_defaults 1 "  buy milk "
      ⟨some "  buy milk ", none, none, none⟩ ⟨[], 0, 0⟩ rfl).2
      ⟨0, 1, "buy milk", "", false, 0⟩ ⟨[⟨0, 1, "buy milk", "", false, 0⟩], 1, 1⟩ (by rfl)

end TaskPilot

namespace TaskPilot

/-- C5: a successful update rewrites exactly the owner-scoped matched
task: the result keeps its id, owner and creation timestamp, keeps
every field not supplied in the body, and every task of the new store
is either an untouched task of the old store or the rewrite of an
owner-matched one. -/
theorem update_frames_unsupplied_fields (caller id : Nat) (b : TaskBody) (st : Store)
    (t' : Task) (st' : Store) (h : updateTask caller id b st = .ok (t', st')) :
    (∃ t, st.tasks.find? (ownedMatch caller id) = some t ∧
      t' = applyUpdates b t ∧
      t'.id = t.id ∧ t'.owner = t.owner ∧ t'.createdAt = t.createdAt ∧
      (b.title = none → t'.title = t.title) ∧
      (b.description = none → t'.description = t.description) ∧
      (b.completed = none → t'.completed = t.completed)) ∧
    (∀ x ∈ st.tasks, ownedMatch caller id x = false → x ∈ st'.tasks) ∧
    (∀ x ∈ st'.tasks, x ∈ st.tasks ∨
      ∃ y ∈ st.tasks, ownedMatch caller id y = true ∧ x = applyUpdates b y) := by
  simp only [updateTask] at h
  split at h
  · exact absurd h (by simp)
  · split at h
    · exact absurd h (by simp)
    next t0 hfind =>
      simp only [Except.ok.injEq, Prod.mk.injEq] at h
      obtain ⟨ht, hst⟩ := h
      subst hst
      refine ⟨⟨t0, hfind, ht.symm, ?_, ?_, ?_, ?_, ?_, ?_⟩, ?_, ?_⟩
      · rw [← ht]; rfl
      · rw [← ht]; rfl
      · rw [← ht]; rfl
      · intro hn; rw [← ht]; simp [applyUpdates, hn]
      · intro hn; rw [← ht]; simp [applyUpdates, hn]
      · intro hn; rw [← ht]; simp [applyUpdates, hn]
      · intro x hx hxm
        simp only [List.mem_map]
        exact ⟨x, hx, by simp [hxm]⟩
      · intro x hx
        simp only [List.mem_map] at hx
        obtain ⟨y, hy, hxy⟩ := hx
        by_cases hc : ownedMatch caller id y = true
        · right
          exact ⟨y, hy, hc, by rw [← hxy]; simp [hc]⟩
        · left
          rw [← hxy]
          simp only [Bool.not_eq_true] at hc
          simp [hc]
          exact hy

theorem update_frames_unsupplied_fields_witness :
    ∃ t, List.find? (ownedMatch 1 0) [(⟨0, 1, "x", "d", false, 3⟩ : Task)] = some t ∧
      (⟨0, 1, "a", "d", true, 3⟩ : Task) = applyUpdates ⟨some "a", none, some true, none⟩ t ∧
      Task.id ⟨0, 1, "a", "d", true, 3⟩ = t.id ∧
      Task.owner ⟨0, 1, "a", "d", true, 3⟩ = t.owner ∧
      Task.createdAt ⟨0, 1, "a", "d", true, 3⟩ = t.createdAt ∧
      ((some "a" : Option String) = none → Task.title ⟨0, 1, "a", "d", true, 3⟩ = t.title) ∧
      ((none : Option String) = none → Task.description ⟨0, 1, "a", "d", true, 3⟩ = t.description) ∧
      ((some true : Option Bool) = none → Task.completed ⟨0, 1, "a", "d", true, 3⟩ = t.completed) :=
  (update_frames_unsupplied_fields 1 0 ⟨some "a", none, some true, none⟩
    ⟨[⟨0, 1, "x", "d", false, 3⟩], 1, 4⟩ ⟨0, 1, "a", "d", true, 3⟩
    ⟨[⟨0, 1, "a", "d", true, 3⟩], 1, 4⟩ (by rfl)).1

end TaskPilot

namespace TaskPilot

lemma listValidationErrors_eq_nil (q : ListQuery) :
    listValidationErrors q = [] ↔
      (pageValid q.page = true ∧ limitValid q.limit = true) := by
  unfold listValidationErrors
  by_cases hp : pageValid q.page <;> by_cases hl : limitValid q.limit <;> simp [hp, hl]

/-- C6 (counterexample): a supplied out-of-range `page` (here `0`) is
rejected with a 400 validation error by the query validators; it is
not clamped to 1. -/
theorem list_page_zero_rejected_not_clamped :
    listTasks 1 ⟨none, some 0, none, none⟩ ⟨[], 0, 0⟩ =
      .error (.validation [⟨"page", "page must be >= 1"⟩]) := by rfl

/-- C6 (amended): for every list call, `page` defaults to 1 and `limit`
to 10 when absent, but a supplied out-of-range value (page < 1, or
limit outside [1,100]) is rejected with a validation error before the
handler's clamping runs; a supplied in-range value is used unchanged,
so the clamp never alters a value that passed validation. -/
theorem list_paging_defaults_and_validation (caller : Nat) (q : ListQuery) (st : Store) :
    (∀ res, listTasks caller q st = .ok res →
      pageValid q.page = true ∧ limitValid q.limit = true ∧
      res.meta.page = q.page.getD 1 ∧ res.meta.limit = q.limit.getD 10) ∧
    ((pageValid q.page = false ∨ limitValid q.limit = false) →
      ∃ e, e ≠ [] ∧ listTasks caller q st = .error (.validation e)) := by
  constructor
  · intro res h
    simp only [listTasks] at h
    split at h
    · exact absurd h (by simp)
    next hne =>
      have hnil : listValidationErrors q = [] := not_not.mp hne
      have hv := (listValidationErrors_eq_nil q).mp hnil
      simp only [Except.ok.injEq] at h
      subst h
      refine ⟨hv.1, hv.2, ?_, ?_⟩
      · cases hq : q.page with
        | none => simp
        | some p =>
          have hp := hv.1
          rw [hq] at hp
          unfold pageValid at hp
          have : (1 : Int) ≤ p := of_decide_eq_true hp
          simp only [Option.getD_some]
          exact max_eq_right this
      · cases hq : q.limit with
        | none => simp
        | some l =>
          have hl := hv.2
          rw [hq] at hl
          unfold limitValid at hl
          simp only [Bool.and_eq_true, decide_eq_true_eq] at hl
          simp only [Option.getD_some]
          rw [min_eq_right hl.2]
          exact max_eq_right hl.1
  · intro hv
    have hne : listValidationErrors q ≠ [] := by
      intro hnil
      have hok := (listValidationErrors_eq_nil q).mp hnil
      rcases hv with hv | hv <;> rw [hv] at hok <;> simp at hok
    exact ⟨listValidationErrors q, hne, by simp [listTasks, hne]⟩

theorem list_paging_defaults_and_validation_witness :
    (pageValid none = true ∧ limitValid (some 5) = true ∧
      ListMeta.page ⟨0, 1, 5, 0⟩ = Option.getD none 1 ∧
      ListMeta.limit ⟨0, 1, 5, 0⟩ = Option.getD (some 5) 10) ∧
    (∃ e, e ≠ [] ∧
      listTasks 1 ⟨none, some 0, none, none⟩ ⟨[], 0, 0⟩ = .error (.validation e)) := by
  constructor
  · exact (list_paging_defaults_and_validation 1 ⟨none, none, some 5, none⟩ ⟨[], 0, 0⟩).1
      ⟨[], ⟨0, 1, 5, 0⟩⟩ (by rfl)
  · exact (list_paging_defaults_and_validation 1 ⟨none, some 0, none, none⟩ ⟨[], 0, 0⟩).2
      (Or.inl (by decide))

end TaskPilot

namespace TaskPilot

lemma find?_map_guarded (p : Task → Bool) (g : Task → Task)
    (hg : ∀ x, p (g x) = p x) (l : List Task) :
    (l.map fun x => if p x then g x else x).find? p =
      Option.map g (l.find? p) := by
  induction l with
  | nil => rfl
  | cons x xs ih =>
    by_cases hx : p x = true
    · rw [List.map_cons, if_pos hx, List.find?_cons_of_pos _ (by rw [hg]; exact hx),
        List.find?_cons_of_pos _ hx]
      rfl
    · rw [List.map_cons, if_neg hx, List.find?_cons_of_neg _ hx,
        List.find?_cons_of_neg _ hx, ih]

lemma map_guarded_idem (p : Task → Bool) (g : Task → Task)
    (hg : ∀ x, p (g x) = p x) (hgg : ∀ x, g (g x) = g x) (l : List Task) :
    ((l.map fun x => if p x then g x else x).map fun x => if p x then g x else x) =
      l.map fun x => if p x then g x else x := by
  rw [List.map_map]
  apply List.map_congr_left
  intro a _
  by_cases ha : p a = true <;> simp [Function.comp_apply, hg, hgg, ha]

/-- C7: marking a task completed is idempotent — when
`Update(completed: true)` succeeds, repeating the same call succeeds
again (no error), returns the task in the same completed state, and
leaves the store exactly as after the first call. -/
theorem update_completed_true_idempotent (caller id : Nat) (st st1 : Store) (t1 : Task)
    (h : updateTask caller id ⟨none, none, some true, none⟩ st = .ok (t1, st1)) :
    updateTask caller id ⟨none, none, some true, none⟩ st1 = .ok (t1, st1) ∧
    t1.completed = true := by
  have hg : ∀ x : Task, ownedMatch caller id (applyUpdates ⟨none, none, some true, none⟩ x) =
      ownedMatch caller id x := fun x => rfl
  have hgg : ∀ x : Task, applyUpdates ⟨none, none, some true, none⟩
      (applyUpdates ⟨none, none, some true, none⟩ x) =
      applyUpdates ⟨none, none, some true, none⟩ x := fun x => rfl
  simp only [updateTask, updateValidationErrors] at h ⊢
  rw [if_neg (fun hc => hc rfl)] at h
  rw [if_neg (fun hc => hc rfl)]
  split at h
  · exact absurd h (by simp)
  next t0 hfind =>
    simp only [Except.ok.injEq, Prod.mk.injEq] at h
    obtain ⟨ht, hst⟩ := h
    subst hst
    have hfind1 : (List.map (fun x => if ownedMatch caller id x then
        applyUpdates ⟨none, none, some true, none⟩ x else x) st.tasks).find?
          (ownedMatch caller id) =
        some (applyUpdates ⟨none, none, some true, none⟩ t0) := by
      rw [find?_map_guarded _ _ hg, hfind]
      rfl
    rw [hfind1]
    constructor
    · simp only [Except.ok.injEq, Prod.mk.injEq]
      constructor
      · rw [← ht]
        exact hgg t0
      · rw [map_guarded_idem _ _ hg hgg]
    · rw [← ht]
      rfl

theorem update_completed_true_idempotent_witness :
    updateTask 1 0 ⟨none, none, some true, none⟩ ⟨[⟨0, 1, "a", "", true, 5⟩], 1, 6⟩ =
      .ok (⟨0, 1, "a", "", true, 5⟩, ⟨[⟨0, 1, "a", "", true, 5⟩], 1, 6⟩) ∧
    Task.completed ⟨0, 1, "a", "", true, 5⟩ = true :=
  update_completed_true_idempotent 1 0 ⟨[⟨0, 1, "a", "", false, 5⟩], 1, 6⟩
    ⟨[⟨0, 1, "a", "", true, 5⟩], 1, 6⟩ ⟨0, 1, "a", "", true, 5⟩ (by rfl)

end TaskPilot

namespace TaskPilot

/-- C8: create is not idempotent — after a successful create, repeating
the identical create succeeds again and yields a second record with a
distinct (fresh) id, and both records are in the resulting store. -/
theorem create_not_idempotent (caller : Nat) (b : TaskBody) (st : Store) (t1 : Task)
    (st1 : Store) (h : createTask caller b st = .ok (t1, st1)) :
    ∃ t2 st2, createTask caller b st1 = .ok (t2, st2) ∧
      t1.id ≠ t2.id ∧ t1 ∈ st2.tasks ∧ t2 ∈ st2.tasks := by
  simp only [createTask] at h ⊢
  split at h
  · exact absurd h (by simp)
  next hv =>
    split at h
    · exact absurd h (by simp)
    next s hs =>
      simp only [Except.ok.injEq, Prod.mk.injEq] at h
      obtain ⟨ht, hst⟩ := h
      subst hst
      rw [if_neg hv]
      refine ⟨_, _, rfl, ?_, ?_, ?_⟩
      · rw [← ht]
        simp [newTask]
      · rw [← ht]
        simp
      · simp

theorem create_not_idempotent_witness :
    ∃ t2 st2,
      createTask 1 ⟨some "buy milk", none, none, none⟩ ⟨[⟨0, 1, "buy milk", "", false, 0⟩], 1, 1⟩ =
        .ok (t2, st2) ∧
      Task.id ⟨0, 1, "buy milk", "", false, 0⟩ ≠ t2.id ∧
      (⟨0, 1, "buy milk", "", false, 0⟩ : Task) ∈ st2.tasks ∧ t2 ∈ st2.tasks :=
  create_not_idempotent 1 ⟨some "buy milk", none, none, none⟩ ⟨[], 0, 0⟩
    ⟨0, 1, "buy milk", "", false, 0⟩ ⟨[⟨0, 1, "buy milk", "", false, 0⟩], 1, 1⟩ (by rfl)

/-- C9 (counterexample): a task-list fetch that comes back as an
authentication failure (`ok = false`, status 401) leaves the stored
token and user untouched and shows an in-place error banner — the
client does not clear its session or redirect to login on this call. -/
theorem fetch_tasks_401_keeps_session :
    (onFetchTasksResponse ⟨some "tok", some 1, [], none⟩ ⟨false, 401, none, none⟩).token =
        some "tok" ∧
    (onFetchTasksResponse ⟨some "tok", some 1, [], none⟩ ⟨false, 401, none, none⟩).user =
        some 1 ∧
    (onFetchTasksResponse ⟨some "tok", some 1, [], none⟩ ⟨false, 401, none, none⟩).error =
        some "Failed to load tasks" := by
  refine ⟨rfl, rfl, rfl⟩

/-- C9 (amended): only the startup `/me` identity check reacts to an
authentication failure by clearing the session — it drops the token
and user, after which the `/tasks` route guard sends the client to the
login view; the task-list fetch instead keeps the session unchanged
and displays an in-place error message. -/
theorem me_check_clears_session_fetch_shows_error (s : ClientState) (r : ClientResponse)
    (hfail : r.ok = false) :
    (onMeResponse s r).token = none ∧
    (onMeResponse s r).user = none ∧
    tasksRouteTarget (onMeResponse s r).token = "/login" ∧
    (onFetchTasksResponse s r).token = s.token ∧
    (onFetchTasksResponse s r).user = s.user ∧
    (onFetchTasksResponse s r).error = some "Failed to load tasks" := by
  unfold onMeResponse onFetchTasksResponse clientLogout tasksRouteTarget
  rw [hfail]
  simp

theorem me_check_clears_session_fetch_shows_error_witness :
    (onMeResponse ⟨some "tok", some 1, [], none⟩ ⟨false, 401, none, none⟩).token = none ∧
    (onMeResponse ⟨some "tok", some 1, [], none⟩ ⟨false, 401, none, none⟩).user = none ∧
    tasksRouteTarget (onMeResponse ⟨some "tok", some 1, [], none⟩
      ⟨false, 401, none, none⟩).token = "/login" ∧
    (onFetchTasksResponse ⟨some "tok", some 1, [], none⟩ ⟨false, 401, none, none⟩).token =
      some "tok" ∧
    (onFetchTasksResponse ⟨some "tok", some 1, [], none⟩ ⟨false, 401, none, none⟩).user =
      some 1 ∧
    (onFetchTasksResponse ⟨some "tok", some 1, [], none⟩ ⟨false, 401, none, none⟩).error =
      some "Failed to load tasks" :=
  me_check_clears_session_fetch_shows_error ⟨some "tok", some 1, [], none⟩
    ⟨false, 401, none, none⟩ rfl

end TaskPilot

namespace TaskPilot

lemma jsSplitChars_no_sep (sep : Char) (l : List Char) (h : sep ∉ l) :
    jsSplitChars sep l = [l] := by
  induction l with
  | nil => rfl
  | cons c rest ih =>
    simp only [List.mem_cons, not_or] at h
    have hc : ¬c = sep := fun hcc => h.1 hcc.symm
    simp only [jsSplitChars]
    rw [ih h.2, if_neg hc]

lemma jsSplitChars_append (sep : Char) (l1 l2 : List Char) (h : sep ∉ l1) :
    jsSplitChars sep (l1 ++ sep :: l2) = l1 :: jsSplitChars sep l2 := by
  induction l1 with
  | nil => simp [jsSplitChars]
  | cons c rest ih =>
    simp only [List.mem_cons, not_or] at h
    have hc : ¬c = sep := fun hcc => h.1 hcc.symm
    rw [List.cons_append]
    simp only [jsSplitChars]
    rw [ih h.2, if_neg hc]

lemma jsSplit_append_colon (field dir : String) (hf : ':' ∉ field.data) :
    jsSplit (field ++ ":" ++ dir) ':' = field :: jsSplit dir ':' := by
  unfold jsSplit
  have hdata : (field ++ ":" ++ dir).data = field.data ++ ':' :: dir.data := by
    simp [String.data_append]
  rw [hdata, jsSplitChars_append _ _ _ hf, List.map_cons]

/-- C10: for a supplied sort parameter of the shape `field:dir`
(neither part containing a colon), the sort key is the field string
itself, taken with no validation, and the direction is ascending (`1`)
exactly when `dir` is the exact string `'asc'`; anything else —
`'ASC'`, a misspelling, or an absent direction — sorts descending
(`-1`). -/
theorem sort_param_parsing (field dir : String)
    (hf : ':' ∉ field.data) (hd : ':' ∉ dir.data) :
    parseSort (some (field ++ ":" ++ dir)) =
      (field, if dir = "asc" then 1 else -1) ∧
    (field ≠ "" → parseSort (some field) = (field, -1)) := by
  have hdata : (field ++ ":" ++ dir).data = field.data ++ ':' :: dir.data := by
    simp [String.data_append]
  constructor
  · have hne : (field ++ ":" ++ dir) ≠ "" := by
      intro hcontra
      have : (field ++ ":" ++ dir).data = [] := by rw [hcontra]
      rw [hdata] at this
      simp at this
    simp only [parseSort, if_neg hne]
    rw [jsSplit_append_colon _ _ hf]
    have hdir : jsSplit dir ':' = [dir] := by
      unfold jsSplit
      rw [jsSplitChars_no_sep _ _ hd]
      rfl
    rw [hdir]
    simp only [List.headD_cons, List.getElem?_cons_succ, List.getElem?_cons_zero,
      Option.some.injEq, Prod.mk.injEq, true_and]
  · intro hne
    simp only [parseSort, if_neg hne]
    have hfield : jsSplit field ':' = [field] := by
      unfold jsSplit
      rw [jsSplitChars_no_sep _ _ hf]
      rfl
    rw [hfield]
    simp

theorem sort_param_parsing_witness :
    parseSort (some "title:ASC") = ("title", -1) ∧
    parseSort (some "title") = ("title", -1) := by
  have H := sort_param_parsing "title" "ASC" (by decide) (by decide)
  constructor
  · have e1 : ("title" ++ ":" ++ "ASC" : String) = "title:ASC" := by decide
    rw [← e1, H.1]
    decide
  · exact H.2 (by decide)

end TaskPilot
